import Mathlib

/-!
Verification of the pagure-repospanner-massmigrate migration tool.

Shallow embedding of the two scripts:
  * `migrate.py`   — the per-project migration pipeline (push, prime, reconfigure)
    driven by `match_and_run`;
  * `primecache.py` — the standalone cache-priming script with its
    clone/rename/rmtree swap of the mirror directory.

Filesystem state is modelled as an association list from paths to directory
entries; subprocess outcomes (git push / clone / pull exit status) are
parameters of the model.  Session (database) activity and subprocess
invocations are recorded as explicit event traces.
-/

namespace Massmigrate

/-- Repository kinds, `pagure.lib.REPOTYPES` (external collaborator of both
scripts; spec section 3 lists main code, documentation, tickets, requests). -/
def REPOTYPES : List String := ["main", "doc", "ticket", "requests"]

/-- A push credential pair, `regioninfo["push_cert"]`. -/
structure PushCert where
  cert : String
  key : String
deriving Repr, DecidableEq

/-- Per-(project, repotype, region) connection bundle returned by
`project.repospanner_repo_info`. -/
structure RegionInfo where
  url : String
  ca : String
  push_cert : PushCert
deriving Repr, DecidableEq

/-- The slice of a Pagure project record that the two scripts read or write.
`repopath`, `repo_info` and `repo_name` stand for the project methods
`repopath(repotype)`, `repospanner_repo_info(repotype, region)` and
`_repospanner_repo_name(repotype)` (external registry collaborators). -/
structure Project where
  name : String
  username : String
  is_fork : Bool
  name_space : Option String
  fullname : String
  path : String
  repospanner_region : Option String
  repopath : String → Option String
  repo_info : String → String → String × RegionInfo
  repo_name : String → String

/-- `project.repospanner_repo_info(repotype)` with no explicit region argument
routes through the project's current `repospanner_region` field (this is why
the code temporarily mutates that field around pushes and clones). -/
def repospanner_repo_info (p : Project) (rt : String) : Option (String × RegionInfo) :=
  p.repospanner_region.map (fun r => p.repo_info rt r)

/-- Error taxonomy of the pipeline. -/
inductive Err where
  | transfer (repotype : String)
  | creation
  | notConfigured
deriving Repr, DecidableEq

namespace Primecache

/-- What a directory on disk holds: either a complete clone written by
`project._repospanner_clone`, or an arbitrary pre-existing directory. -/
inductive Entry where
  | cloneDir
  | dir (id : Nat)
deriving Repr, DecidableEq

/-- Filesystem: paths to directory entries. -/
abbrev PFS := List (String × Entry)

def pfsFind : PFS → String → Option Entry
  | [], _ => none
  | kv :: t, path => if kv.1 == path then some kv.2 else pfsFind t path

def pfsErase : PFS → String → PFS
  | [], _ => []
  | kv :: t, path => if kv.1 == path then pfsErase t path else kv :: pfsErase t path

def pfsInsert (fs : PFS) (path : String) (e : Entry) : PFS :=
  (path, e) :: pfsErase fs path

/-- `os.rename(src, dst)`: move the entry at `src` to `dst`.  Both renames in
`prime_cache` happen at points where `src` exists, so the missing-source case
never arises in the modelled flows. -/
def pfsMove (fs : PFS) (src dst : String) : PFS :=
  match pfsFind fs src with
  | some e => pfsInsert (pfsErase fs src) dst e
  | none => fs

/-- Filesystem-level events performed by `prime_cache`, in program order. -/
inductive Event where
  | cloneTo (target : String)
  | renameDir (src dst : String)
  | rmtree (path : String)
deriving Repr, DecidableEq

/-- How the swap block of `primecache.prime_cache` can fail:
  * `transfer`: the bridge clone subprocess exited non-zero
    (`subprocess.check_call` raised);
  * `oldExists p`: `raise Exception("Error: old cachedir already existed...")`;
  * `rmtreeMissing p`: `shutil.rmtree` on a path that does not exist raises
    `FileNotFoundError`. -/
inductive SwapErr where
  | transfer
  | oldExists (path : String)
  | rmtreeMissing (path : String)
deriving Repr, DecidableEq

/-- The per-cachedir body of `primecache.prime_cache` (lines 52-60):

    tempdir = cachedir + '.cacheprime'
    project._repospanner_clone(repotype, True, tempdir)
    if os.path.exists(cachedir):
        if os.path.exists(cachedir + ".old"):
            raise Exception("Error: old cachedir already existed: %s.old" % cachedir)
        os.rename(cachedir, cachedir + ".old")
    os.rename(tempdir, cachedir)
    shutil.rmtree(cachedir + ".old")

`cloneOK` is the exit status of the bridge clone; `git clone` also fails when
the target already exists, hence the extra staging-path-occupied check. -/
def swap_step (cloneOK : Bool) (cachedir : String) (fs : PFS) :
    PFS × List Event × Option SwapErr :=
  let tempdir := cachedir ++ ".cacheprime"
  let olddir := cachedir ++ ".old"
  if (pfsFind fs tempdir).isSome || !cloneOK then
    (fs, [Event.cloneTo tempdir], some SwapErr.transfer)
  else
    let fs1 := pfsInsert fs tempdir Entry.cloneDir
    match pfsFind fs1 cachedir with
    | some _ =>
      match pfsFind fs1 olddir with
      | some _ => (fs1, [Event.cloneTo tempdir], some (SwapErr.oldExists olddir))
      | none =>
        let fs2 := pfsMove fs1 cachedir olddir
        let fs3 := pfsMove fs2 tempdir cachedir
        let evs := [Event.cloneTo tempdir, Event.renameDir cachedir olddir,
          Event.renameDir tempdir cachedir, Event.rmtree olddir]
        match pfsFind fs3 olddir with
        | none => (fs3, evs, some (SwapErr.rmtreeMissing olddir))
        | some _ => (pfsErase fs3 olddir, evs, none)
    | none =>
      let fs3 := pfsMove fs1 tempdir cachedir
      let evs := [Event.cloneTo tempdir, Event.renameDir tempdir cachedir,
        Event.rmtree olddir]
      match pfsFind fs3 olddir with
      | none => (fs3, evs, some (SwapErr.rmtreeMissing olddir))
      | some _ => (pfsErase fs3 olddir, evs, none)

end Primecache

namespace Migrate

/-- External environment of `migrate.py`: the reference listing of a local
repository (`pygit2.Repository(...).listall_reference_objects()` shorthand
names, keyed by repository path) and the exit statuses of the three kinds of
subprocesses (`git push`/bridge clone keyed by repotype, `git pull` keyed by
cache directory). -/
structure GitEnv where
  refsOf : String → List String
  pushOK : String → Bool
  cloneOK : String → Bool
  pullOK : String → Bool

/-- A subprocess invocation of the bridge helper: argv, working directory and
the environment variables injected on top of `os.environ`. -/
structure Invocation where
  command : List String
  cwd : String
  env : List (String × String)
deriving Repr, DecidableEq

/-- The environment variables set for every bridge-helper subprocess
(push, clone and pull alike). -/
def bridgeEnv (ri : RegionInfo) : List (String × String) :=
  [("USER", "pagure"),
   ("REPOBRIDGE_CONFIG", ":environment:"),
   ("REPOBRIDGE_BASEURL", ri.url),
   ("REPOBRIDGE_CA", ri.ca),
   ("REPOBRIDGE_CERT", ri.push_cert.cert),
   ("REPOBRIDGE_KEY", ri.push_cert.key)]

/-- The `pushargs` metadata pairs built in `_run_git_push`. -/
def pushExtras (repotype : String) (p : Project) : List String :=
  ["--extra", "username", "releng",
   "--extra", "repotype", repotype,
   "--extra", "project_name", p.name,
   "--extra", "project_user", if p.is_fork then p.username else "",
   "--extra", "project_namespace", p.name_space.getD ""]

/-- The argv of the single `git push` through the bridge helper: the
`ext::` remote string followed by every local reference shorthand. -/
def pushCommand (bridgeBinary : String) (p : Project) (repotype : String)
    (refs : List String) : List String :=
  ["git", "-c", "protocol.ext.allow=always", "push",
   "ext::" ++ bridgeBinary ++ " " ++ String.intercalate " " (pushExtras repotype p)
     ++ " " ++ p.repo_name repotype] ++ refs

/-- The one bridge-helper push subprocess for repository kind `rt` living at
path `d`, with the project's region resolved to `r`. -/
def pushInvocation (bridgeBinary : String) (env : GitEnv) (p : Project)
    (r rt d : String) : Invocation :=
  { command := pushCommand bridgeBinary p rt (env.refsOf d),
    cwd := d,
    env := bridgeEnv (p.repo_info rt r).2 }

/-- The loop of `_run_git_push` over a repotype list: skip absent kinds, run
one `subprocess.check_call` per present kind, stop at the first non-zero
exit (`TransferError`). -/
def runGitPushLoop (bridgeBinary : String) (env : GitEnv) (p : Project) :
    List String → List Invocation × Option Err
  | [] => ([], none)
  | rt :: rest =>
    match p.repopath rt with
    | none => runGitPushLoop bridgeBinary env p rest
    | some d =>
      match p.repospanner_region with
      | none => ([], some Err.notConfigured)
      | some r =>
        let inv := pushInvocation bridgeBinary env p r rt d
        if env.pushOK rt then
          let tail := runGitPushLoop bridgeBinary env p rest
          (inv :: tail.1, tail.2)
        else ([inv], some (Err.transfer rt))

/-- `_run_git_push`: push every present repository kind, all refs in one
invocation per kind. -/
def _run_git_push (bridgeBinary : String) (env : GitEnv) (p : Project) :
    List Invocation × Option Err :=
  runGitPushLoop bridgeBinary env p REPOTYPES

/-- `run_git_push`: temporarily mark `project.repospanner_region` so the
helper functions can resolve credentials, run the pushes, and reset the field
to `None` in a `finally` (so it is restored on success and on failure). -/
def run_git_push (region bridgeBinary : String) (env : GitEnv) (p : Project) :
    Project × List Invocation × Option Err :=
  let pMarked := { p with repospanner_region := some region }
  let r := _run_git_push bridgeBinary env pMarked
  ({ pMarked with repospanner_region := none }, r.1, r.2)

/-- Database session events: `session.add(project)` and `session.commit()`. -/
inductive SEvent where
  | add (projectName : String)
  | commit
deriving Repr, DecidableEq

/-- `reconfigure`: set the migration-region field, stage the project in the
session, and commit the session immediately. -/
def reconfigure (region : String) (p : Project) : Project × List SEvent :=
  ({ p with repospanner_region := some region }, [SEvent.add p.name, SEvent.commit])

/-- A cached mirror directory: whether it was freshly written by
`repospanner_clone`, and its git repository configuration entries. -/
structure RepoDir where
  cloned_fresh : Bool
  config : List (String × String)
deriving Repr, DecidableEq

/-- The pseudo-cache filesystem: cache directory paths to mirror state. -/
abbrev FS := List (String × RepoDir)

def fsFind : FS → String → Option RepoDir
  | [], _ => none
  | kv :: t, path => if kv.1 == path then some kv.2 else fsFind t path

/-- Cache events of `prime_cache`: an in-place `git pull` (with its exit
status; `mayfail` means the status is ignored) or a fresh bridge clone. -/
inductive CEvent where
  | pull (cachedir : String) (ok : Bool)
  | cloneTo (target : String)
deriving Repr, DecidableEq

/-- `runcmd(workdir, cmd, env, mayfail)`: `subprocess.call` when `mayfail`
(exit status ignored), `subprocess.check_call` otherwise (non-zero exit
raises). -/
def runcmd (exitOK mayfail : Bool) : Option Unit :=
  if mayfail then none
  else if exitOK then none
  else some ()

/-- The five `repospanner.*` entries written into the clone's own git config
by `repospanner_clone` when `set_config` is true. -/
def repospannerConfig (repourl : String) (ri : RegionInfo) : List (String × String) :=
  [("repospanner.url", repourl),
   ("repospanner.cert", ri.push_cert.cert),
   ("repospanner.key", ri.push_cert.key),
   ("repospanner.cacert", ri.ca),
   ("repospanner.enabled", "true")]

/-- `repospanner_clone(project, repotype, set_config, target)`: run the bridge
clone into `target` (raising `TransferError` on non-zero exit), then when
`set_config` is set write the repoSpanner connection settings into the new
clone's repository configuration.  Credentials are resolved through the
project's current `repospanner_region` field. -/
def repospanner_clone (p : Project) (rt : String) (set_config : Bool)
    (target : String) (ok : Bool) (fs : FS) : FS × List CEvent × Option Err :=
  match repospanner_repo_info p rt with
  | none => (fs, [], some Err.notConfigured)
  | some (repourl, ri) =>
    if ok then
      ((target, { cloned_fresh := true,
                  config := if set_config then repospannerConfig repourl ri else [] })
         :: fs,
       [CEvent.cloneTo target], none)
    else (fs, [CEvent.cloneTo target], some (Err.transfer rt))

/-- `os.path.join(pseudopath, repotype, project.path)`. -/
def cachedirOf (pseudopath rt : String) (p : Project) : String :=
  pseudopath ++ "/" ++ rt ++ "/" ++ p.path

/-- The loop of `migrate.prime_cache` over a repotype list: skip absent kinds;
if the cache directory exists, `git pull` in place with `mayfail=True`
(failures swallowed); otherwise temporarily mark the project's region and
clone fresh with `set_config=True`, resetting the region in a `finally`. -/
def primeCacheLoop (region pseudopath : String) (env : GitEnv) (p : Project) :
    List String → FS → FS × List CEvent × Option Err
  | [], fs => (fs, [], none)
  | rt :: rest, fs =>
    match p.repopath rt with
    | none => primeCacheLoop region pseudopath env p rest fs
    | some _ =>
      let cachedir := cachedirOf pseudopath rt p
      match fsFind fs cachedir with
      | some _ =>
        match runcmd (env.pullOK cachedir) true with
        | some _ => (fs, [CEvent.pull cachedir (env.pullOK cachedir)], some (Err.transfer rt))
        | none =>
          let tail := primeCacheLoop region pseudopath env p rest fs
          (tail.1, CEvent.pull cachedir (env.pullOK cachedir) :: tail.2.1, tail.2.2)
      | none =>
        let pMarked := { p with repospanner_region := some region }
        let cl := repospanner_clone pMarked rt true cachedir (env.cloneOK rt) fs
        match cl.2.2 with
        | some e => (cl.1, cl.2.1, some e)
        | none =>
          let tail := primeCacheLoop region pseudopath env p rest cl.1
          (tail.1, cl.2.1 ++ tail.2.1, tail.2.2)

/-- `migrate.prime_cache`: build or update the pseudo cache for every
repository kind. -/
def prime_cache (region pseudopath : String) (env : GitEnv) (p : Project)
    (fs : FS) : FS × List CEvent × Option Err :=
  primeCacheLoop region pseudopath env p REPOTYPES fs

/-- The flags of `parse_args` that drive one project's pipeline, plus the
configuration the steps read. -/
structure PipelineCfg where
  region : String
  create : Bool
  prime : Bool
  reconfigure : Bool
  bridgeBinary : String
  pseudopath : String

/-- Events observable at the run level: session activity, cache activity, and
the `traceback.print_exc()` of the per-project exception handler. -/
inductive REvent where
  | session (e : SEvent)
  | cache (e : CEvent)
  | errorLogged (fullname : String)
deriving Repr, DecidableEq

/-- Result of `run_one_project`: the step names that completed (the keys of
the `times` dict, in order), the project state, the cache filesystem, the
session/cache events, and the propagated exception if any. -/
structure PipelineOut where
  steps : List String
  proj : Project
  fs : FS
  events : List REvent
  err : Option Err

/-- The tail of `run_one_project` after a successful prime (or with priming
disabled): the optional `reconfigure` step. -/
def finishReconfigure (cfg : PipelineCfg) (p : Project) (fs : FS)
    (tr : List String) (evs : List REvent) : PipelineOut :=
  if cfg.reconfigure then
    let rc := reconfigure cfg.region p
    { steps := tr ++ ["reconfigure"], proj := rc.1, fs := fs,
      events := evs ++ rc.2.map REvent.session, err := none }
  else { steps := tr, proj := p, fs := fs, events := evs, err := none }

/-- `run_one_project`: create? → push → prime? → reconfigure?, in order, each
step's completion recorded in `times`; any raised exception stops the pipeline
at that step and propagates. -/
def run_one_project (cfg : PipelineCfg) (env : GitEnv) (createOK : Bool)
    (p : Project) (fs : FS) : PipelineOut :=
  if cfg.create && !createOK then
    { steps := [], proj := p, fs := fs, events := [], err := some Err.creation }
  else
    let tr0 : List String := if cfg.create then ["create"] else []
    let pushed := run_git_push cfg.region cfg.bridgeBinary env p
    match pushed.2.2 with
    | some e => { steps := tr0, proj := pushed.1, fs := fs, events := [], err := some e }
    | none =>
      let tr1 := tr0 ++ ["push"]
      if cfg.prime then
        let pr := prime_cache cfg.region cfg.pseudopath env pushed.1 fs
        let evs1 := pr.2.1.map REvent.cache
        match pr.2.2 with
        | some e =>
          { steps := tr1, proj := pushed.1, fs := pr.1, events := evs1, err := some e }
        | none => finishReconfigure cfg pushed.1 pr.1 (tr1 ++ ["prime"]) evs1
      else finishReconfigure cfg pushed.1 fs tr1 []

/-- The result a pipeline invocation reports back to `match_and_run`. -/
structure PipeResult where
  events : List REvent
  err : Option Err
deriving Repr, DecidableEq

/-- Outcome of a whole run: the fullnames passed to `run_one_project` in
order, the event trace, and whether the run was aborted by
`SystemExit("Project failed with failfast")`. -/
structure RunResult where
  invoked : List String
  events : List REvent
  aborted : Bool
deriving Repr, DecidableEq

/-- `re.match(pattern, s)` semantics: the pattern, seen as a language `L`,
matches anchored at the start — some prefix of `s` belongs to `L`. -/
def reMatch (L : String → Bool) (s : String) : Bool :=
  (List.range (s.length + 1)).any (fun n => L (s.take n))

/-- The trace left by the per-project exception boundary
(`traceback.print_exc()`) after a pipeline outcome. -/
def errTrail (e : Option Err) (fullname : String) : List REvent :=
  match e with
  | some _ => [REvent.errorLogged fullname]
  | none => []

/-- The per-project loop of `match_and_run`: skip non-matching names with no
side effect; otherwise invoke the pipeline; on an exception print the
traceback and, with failfast, raise `SystemExit` without touching further
projects. -/
def matchAndRunLoop (failfast : Bool) (L : String → Bool)
    (pipeline : Project → PipeResult) : List Project → RunResult
  | [] => { invoked := [], events := [], aborted := false }
  | p :: rest =>
    if reMatch L p.fullname then
      let r := pipeline p
      match r.err with
      | none =>
        let tail := matchAndRunLoop failfast L pipeline rest
        { invoked := p.fullname :: tail.invoked, events := r.events ++ tail.events,
          aborted := tail.aborted }
      | some _ =>
        if failfast then
          { invoked := [p.fullname],
            events := r.events ++ [REvent.errorLogged p.fullname], aborted := true }
        else
          let tail := matchAndRunLoop failfast L pipeline rest
          { invoked := p.fullname :: tail.invoked,
            events := r.events ++ REvent.errorLogged p.fullname :: tail.events,
            aborted := tail.aborted }
    else matchAndRunLoop failfast L pipeline rest

/-- `match_and_run`: query the registry for projects with null migration
region (in registry order) and drive the loop over them.  Note the function
performs no session commit of its own. -/
def match_and_run (failfast : Bool) (L : String → Bool)
    (pipeline : Project → PipeResult) (projects : List Project) : RunResult :=
  matchAndRunLoop failfast L pipeline
    (projects.filter (fun p => p.repospanner_region.isNone))

/-- `run_one_project` as the pipeline handed to `match_and_run` (events and
propagated exception, each project starting from cache state `fs`). -/
def runOneAsPipeline (cfg : PipelineCfg) (env : GitEnv) (createOK : Bool)
    (fs : FS) : Project → PipeResult :=
  fun p =>
    let out := run_one_project cfg env createOK p fs
    { events := out.events, err := out.err }

end Migrate

/-! Concrete instances used to exercise the model at specific inputs. -/

/-- A sample region connection bundle. -/
def sampleInfo : RegionInfo :=
  { url := "https://rs.example.com",
    ca := "/etc/pki/ca.pem",
    push_cert := { cert := "/etc/pki/push.pem", key := "/etc/pki/push.key" } }

/-- A sample project with the given name and per-repotype local paths. -/
def sampleProject (nm : String) (rp : String → Option String) : Project :=
  { name := nm, username := "", is_fork := false, name_space := none,
    fullname := nm, path := nm ++ ".git", repospanner_region := none,
    repopath := rp,
    repo_info := fun rt r => ("url/" ++ r ++ "/" ++ rt, sampleInfo),
    repo_name := fun rt => nm ++ "/" ++ rt }

/-- A project owning no repositories at all. -/
def projA : Project := sampleProject "a" (fun _ => none)

/-- A second project owning no repositories. -/
def projB : Project := sampleProject "b" (fun _ => none)

/-- A third project owning no repositories. -/
def projC : Project := sampleProject "c" (fun _ => none)

/-- A project owning only a main repository. -/
def projMain : Project :=
  sampleProject "p" (fun rt => if rt == "main" then some "/srv/git/p.git" else none)

/-- A project owning a main and a doc repository. -/
def projMainDoc : Project :=
  sampleProject "q"
    (fun rt => if rt == "main" then some "/srv/git/q.git"
      else if rt == "doc" then some "/srv/git/docs/q.git" else none)

/-- A subprocess environment in which every external command succeeds. -/
def envAllOK : Migrate.GitEnv :=
  { refsOf := fun _ => ["main", "v1.0"],
    pushOK := fun _ => true,
    cloneOK := fun _ => true,
    pullOK := fun _ => true }

/-- Pipeline flags with only the (always-on) push step plus reconfigure. -/
def cfgReconfOnly : Migrate.PipelineCfg :=
  { region := "region1", create := false, prime := false, reconfigure := true,
    bridgeBinary := "/usr/libexec/repobridge", pseudopath := "/srv/cache" }

/-- Pipeline flags enabling prime and reconfigure. -/
def cfgPrimeReconf : Migrate.PipelineCfg :=
  { region := "region1", create := false, prime := true, reconfigure := true,
    bridgeBinary := "/usr/libexec/repobridge", pseudopath := "/srv/cache" }

/-! ## Theorems -/

theorem string_append_ne_self {a s : String} (h : s.length ≠ 0) : a ≠ a ++ s := by
  intro hh
  have h2 := congrArg String.length hh
  rw [String.length_append] at h2
  omega

theorem string_append_ne {a s t : String} (h : s.length ≠ t.length) : a ++ s ≠ a ++ t := by
  intro hh
  have h2 := congrArg String.length hh
  rw [String.length_append, String.length_append] at h2
  omega

namespace Primecache

theorem pfsFind_insert_self (fs : PFS) (k : String) (e : Entry) :
    pfsFind (pfsInsert fs k e) k = some e := by
  simp [pfsInsert, pfsFind]

theorem pfsFind_erase_ne (fs : PFS) {k k' : String} (h : k' ≠ k) :
    pfsFind (pfsErase fs k) k' = pfsFind fs k' := by
  induction fs with
  | nil => rfl
  | cons kv t ih =>
    by_cases h1 : kv.1 = k
    · have h2 : (kv.1 == k) = true := by simp [h1]
      have h3 : (kv.1 == k') = false := by
        rw [h1]; exact beq_eq_false_iff_ne.mpr (Ne.symm h)
      simp [pfsErase, pfsFind, h2, h3, ih]
    · have h2 : (kv.1 == k) = false := beq_eq_false_iff_ne.mpr h1
      simp only [pfsErase, pfsFind, h2, if_false, Bool.false_eq_true]
      by_cases h3 : kv.1 = k'
      · simp [pfsFind, h3]
      · have h4 : (kv.1 == k') = false := beq_eq_false_iff_ne.mpr h3
        simp [pfsFind, h4, ih]

theorem pfsFind_erase_self (fs : PFS) (k : String) :
    pfsFind (pfsErase fs k) k = none := by
  induction fs with
  | nil => rfl
  | cons kv t ih =>
    by_cases h1 : kv.1 = k
    · have h2 : (kv.1 == k) = true := by simp [h1]
      simp [pfsErase, h2, ih]
    · have h2 : (kv.1 == k) = false := beq_eq_false_iff_ne.mpr h1
      simp [pfsErase, pfsFind, h2, ih]

theorem pfsFind_insert_ne (fs : PFS) {k k' : String} (e : Entry) (h : k' ≠ k) :
    pfsFind (pfsInsert fs k e) k' = pfsFind fs k' := by
  have h2 : (k == k') = false := beq_eq_false_iff_ne.mpr (Ne.symm h)
  simp [pfsInsert, pfsFind, h2, pfsFind_erase_ne fs h]

/-- Claim C3 (code bug): the spec promises that after a successful swap no
`.old` sibling remains, that the `.old` path is deleted only when it was
created during the same swap, and in particular that the swap succeeds when
`cacheDir` did not pre-exist.  The code instead runs
`shutil.rmtree(cachedir + ".old")` unconditionally: on a fresh prime
(`cacheDir` and `.old` both absent) the clone and the rename succeed — the
cache directory does end up holding the fresh clone — and then the `rmtree`
of the never-created `.old` path raises `FileNotFoundError`, so the swap
fails instead of succeeding. -/
theorem claim_C3_fresh_swap_crashes :
    (swap_step true "/c" []).2.2 = some (SwapErr.rmtreeMissing "/c.old")
    ∧ pfsFind (swap_step true "/c" []).1 "/c" = some Entry.cloneDir
    ∧ (swap_step true "/c" []).2.1
        = [Event.cloneTo "/c.cacheprime", Event.renameDir "/c.cacheprime" "/c",
           Event.rmtree "/c.old"] :=
  ⟨rfl, rfl, rfl⟩

/-- Claim C4 (counterexample): the claim says that when a `.old` sibling
pre-exists the swap fails without producing the staging clone — no clone is
performed before the conflict is detected.  At this concrete input (both
`cacheDir` and its `.old` sibling exist) the swap does fail with the conflict
error, but the clone subprocess has already run — it is the first and only
event — and the staging clone is left on disk. -/
theorem claim_C4_counterexample :
    (swap_step true "/c" [("/c", Entry.dir 0), ("/c.old", Entry.dir 1)]).2.2
        = some (SwapErr.oldExists "/c.old")
    ∧ (swap_step true "/c" [("/c", Entry.dir 0), ("/c.old", Entry.dir 1)]).2.1
        = [Event.cloneTo "/c.cacheprime"]
    ∧ pfsFind (swap_step true "/c" [("/c", Entry.dir 0), ("/c.old", Entry.dir 1)]).1
        "/c.cacheprime" = some Entry.cloneDir :=
  ⟨rfl, rfl, rfl⟩

/-- Claim C4 (amended): the `.old` conflict check runs only after the staging
clone has been produced, and only when `cacheDir` itself exists.  If a `.old`
sibling pre-exists alongside an existing `cacheDir` (staging path free), the
swap fails with the conflict error, leaves `cacheDir` unmodified, but has
already performed the clone and leaves the staging clone on disk.  If the
`.old` sibling pre-exists while `cacheDir` is absent, no conflict is raised at
all: the swap completes, installing the fresh clone and silently deleting the
stale `.old` sibling. -/
theorem claim_C4_swap_conflict (cachedir : String) (fs fs2 : PFS) (e_c e_o e_o2 : Entry)
    (h1t : pfsFind fs (cachedir ++ ".cacheprime") = none)
    (h1c : pfsFind fs cachedir = some e_c)
    (h1o : pfsFind fs (cachedir ++ ".old") = some e_o)
    (h2t : pfsFind fs2 (cachedir ++ ".cacheprime") = none)
    (h2c : pfsFind fs2 cachedir = none)
    (h2o : pfsFind fs2 (cachedir ++ ".old") = some e_o2) :
    (swap_step true cachedir fs).2.2 = some (SwapErr.oldExists (cachedir ++ ".old"))
    ∧ (swap_step true cachedir fs).2.1 = [Event.cloneTo (cachedir ++ ".cacheprime")]
    ∧ pfsFind (swap_step true cachedir fs).1 cachedir = some e_c
    ∧ pfsFind (swap_step true cachedir fs).1 (cachedir ++ ".cacheprime")
        = some Entry.cloneDir
    ∧ (swap_step true cachedir fs2).2.2 = none
    ∧ pfsFind (swap_step true cachedir fs2).1 (cachedir ++ ".old") = none
    ∧ pfsFind (swap_step true cachedir fs2).1 cachedir = some Entry.cloneDir := by
  have hne1 : cachedir ≠ cachedir ++ ".cacheprime" := string_append_ne_self (by decide)
  have hne2 : cachedir ++ ".old" ≠ cachedir ++ ".cacheprime" := string_append_ne (by decide)
  have hne3 : cachedir ≠ cachedir ++ ".old" := string_append_ne_self (by decide)
  have hfs1c : pfsFind (pfsInsert fs (cachedir ++ ".cacheprime") Entry.cloneDir) cachedir
      = some e_c := by rw [pfsFind_insert_ne _ _ hne1]; exact h1c
  have hfs1o : pfsFind (pfsInsert fs (cachedir ++ ".cacheprime") Entry.cloneDir)
      (cachedir ++ ".old") = some e_o := by rw [pfsFind_insert_ne _ _ hne2]; exact h1o
  have hs1 : swap_step true cachedir fs
      = (pfsInsert fs (cachedir ++ ".cacheprime") Entry.cloneDir,
         [Event.cloneTo (cachedir ++ ".cacheprime")],
         some (SwapErr.oldExists (cachedir ++ ".old"))) := by
    simp [swap_step, h1t, hfs1c, hfs1o]
  have hfs2c : pfsFind (pfsInsert fs2 (cachedir ++ ".cacheprime") Entry.cloneDir) cachedir
      = none := by rw [pfsFind_insert_ne _ _ hne1]; exact h2c
  have hmv : pfsMove (pfsInsert fs2 (cachedir ++ ".cacheprime") Entry.cloneDir)
      (cachedir ++ ".cacheprime") cachedir
      = pfsInsert (pfsErase (pfsInsert fs2 (cachedir ++ ".cacheprime") Entry.cloneDir)
          (cachedir ++ ".cacheprime")) cachedir Entry.cloneDir := by
    simp [pfsMove, pfsFind_insert_self]
  have hfs3o : pfsFind (pfsInsert (pfsErase (pfsInsert fs2 (cachedir ++ ".cacheprime")
        Entry.cloneDir) (cachedir ++ ".cacheprime")) cachedir Entry.cloneDir)
      (cachedir ++ ".old") = some e_o2 := by
    rw [pfsFind_insert_ne _ _ (Ne.symm hne3), pfsFind_erase_ne _ hne2,
      pfsFind_insert_ne _ _ hne2]
    exact h2o
  have hs2 : swap_step true cachedir fs2
      = (pfsErase (pfsInsert (pfsErase (pfsInsert fs2 (cachedir ++ ".cacheprime")
            Entry.cloneDir) (cachedir ++ ".cacheprime")) cachedir Entry.cloneDir)
          (cachedir ++ ".old"),
         [Event.cloneTo (cachedir ++ ".cacheprime"),
          Event.renameDir (cachedir ++ ".cacheprime") cachedir,
          Event.rmtree (cachedir ++ ".old")],
         none) := by
    simp [swap_step, h2t, hfs2c, hmv, hfs3o]
  refine ⟨by rw [hs1], by rw [hs1], ?_, ?_, by rw [hs2], ?_, ?_⟩
  · rw [hs1]; exact hfs1c
  · rw [hs1]; exact pfsFind_insert_self fs (cachedir ++ ".cacheprime") Entry.cloneDir
  · rw [hs2]; exact pfsFind_erase_self _ (cachedir ++ ".old")
  · rw [hs2]
    rw [pfsFind_erase_ne _ hne3]
    exact pfsFind_insert_self _ cachedir Entry.cloneDir

/-- Witness for `claim_C4_swap_conflict`: both scenarios are realizable — a
filesystem with `cacheDir` and `.old` both present, and one with only a stale
`.old`. -/
theorem claim_C4_swap_conflict_witness :
    pfsFind [("/c", Entry.dir 0), ("/c.old", Entry.dir 1)] ("/c" ++ ".cacheprime") = none
    ∧ pfsFind [("/c", Entry.dir 0), ("/c.old", Entry.dir 1)] "/c" = some (Entry.dir 0)
    ∧ pfsFind [("/c", Entry.dir 0), ("/c.old", Entry.dir 1)] ("/c" ++ ".old")
        = some (Entry.dir 1)
    ∧ pfsFind [("/c.old", Entry.dir 2)] ("/c" ++ ".cacheprime") = none
    ∧ pfsFind [("/c.old", Entry.dir 2)] "/c" = none
    ∧ pfsFind [("/c.old", Entry.dir 2)] ("/c" ++ ".old") = some (Entry.dir 2)
    ∧ ((swap_step true "/c" [("/c", Entry.dir 0), ("/c.old", Entry.dir 1)]).2.2
        = some (SwapErr.oldExists ("/c" ++ ".old"))
      ∧ (swap_step true "/c" [("/c", Entry.dir 0), ("/c.old", Entry.dir 1)]).2.1
        = [Event.cloneTo ("/c" ++ ".cacheprime")]
      ∧ pfsFind (swap_step true "/c" [("/c", Entry.dir 0), ("/c.old", Entry.dir 1)]).1 "/c"
        = some (Entry.dir 0)
      ∧ pfsFind (swap_step true "/c" [("/c", Entry.dir 0), ("/c.old", Entry.dir 1)]).1
          ("/c" ++ ".cacheprime") = some Entry.cloneDir
      ∧ (swap_step true "/c" [("/c.old", Entry.dir 2)]).2.2 = none
      ∧ pfsFind (swap_step true "/c" [("/c.old", Entry.dir 2)]).1 ("/c" ++ ".old") = none
      ∧ pfsFind (swap_step true "/c" [("/c.old", Entry.dir 2)]).1 "/c"
        = some Entry.cloneDir) :=
  ⟨rfl, rfl, rfl, rfl, rfl, rfl,
    claim_C4_swap_conflict "/c" [("/c", Entry.dir 0), ("/c.old", Entry.dir 1)]
      [("/c.old", Entry.dir 2)] (Entry.dir 0) (Entry.dir 1) (Entry.dir 2)
      rfl rfl rfl rfl rfl rfl⟩

end Primecache

namespace Migrate

theorem project_set_region_twice (p : Project) (a b : Option String) :
    ({ { p with repospanner_region := a } with repospanner_region := b } : Project)
      = { p with repospanner_region := b } := rfl

theorem runGitPushLoop_eq (bb : String) (env : GitEnv) (p : Project) (r : String)
    (hr : p.repospanner_region = some r) (l : List String)
    (h : (runGitPushLoop bb env p l).2 = none) :
    (runGitPushLoop bb env p l).1
      = l.filterMap (fun rt => (p.repopath rt).map (pushInvocation bb env p r rt)) := by
  induction l with
  | nil => rfl
  | cons rt rest ih =>
    cases hrp : p.repopath rt with
    | none =>
      simp only [runGitPushLoop, hrp] at h ⊢
      rw [List.filterMap_cons, hrp]
      exact ih h
    | some d =>
      simp only [runGitPushLoop, hrp, hr] at h ⊢
      cases hok : env.pushOK rt with
      | true =>
        simp only [hok, if_true] at h ⊢
        rw [List.filterMap_cons, hrp]
        simp only [Option.map_some']
        exact congrArg _ (ih h)
      | false => simp [hok] at h

/-- Claim C5: for every repository kind present on local disk, the push step
runs exactly one bridge-helper subprocess — the invocation list is exactly one
invocation per present kind, in repotype order — and that single invocation's
command line carries every local reference name. -/
theorem claim_C5_push_one_invocation (bb : String) (env : GitEnv) (p : Project)
    (r rt d ref : String)
    (hr : p.repospanner_region = some r)
    (hok : (_run_git_push bb env p).2 = none)
    (hrt : rt ∈ REPOTYPES)
    (hd : p.repopath rt = some d)
    (href : ref ∈ env.refsOf d) :
    (_run_git_push bb env p).1
        = REPOTYPES.filterMap (fun k => (p.repopath k).map (pushInvocation bb env p r k))
    ∧ pushInvocation bb env p r rt d ∈ (_run_git_push bb env p).1
    ∧ ref ∈ (pushInvocation bb env p r rt d).command := by
  have hall : (_run_git_push bb env p).1
      = REPOTYPES.filterMap (fun k => (p.repopath k).map (pushInvocation bb env p r k)) :=
    runGitPushLoop_eq bb env p r hr REPOTYPES hok
  refine ⟨hall, ?_, ?_⟩
  · rw [hall]
    exact List.mem_filterMap.mpr ⟨rt, hrt, by rw [hd]; rfl⟩
  · simp only [pushInvocation, pushCommand, List.mem_append]
    exact Or.inr href

/-- Witness for `claim_C5_push_one_invocation`: a project with one main
repository holding refs `main` and `v1.0`, all pushes succeeding. -/
theorem claim_C5_push_one_invocation_witness :
    ({ projMain with repospanner_region := some "region1" } : Project).repospanner_region
        = some "region1"
    ∧ (_run_git_push "bridge" envAllOK
        { projMain with repospanner_region := some "region1" }).2 = none
    ∧ "main" ∈ REPOTYPES
    ∧ ({ projMain with repospanner_region := some "region1" } : Project).repopath "main"
        = some "/srv/git/p.git"
    ∧ "v1.0" ∈ envAllOK.refsOf "/srv/git/p.git"
    ∧ ((_run_git_push "bridge" envAllOK
          { projMain with repospanner_region := some "region1" }).1
        = REPOTYPES.filterMap (fun k =>
            (({ projMain with repospanner_region := some "region1" } : Project).repopath k).map
              (pushInvocation "bridge" envAllOK
                { projMain with repospanner_region := some "region1" } "region1" k))
      ∧ pushInvocation "bridge" envAllOK
          { projMain with repospanner_region := some "region1" } "region1" "main"
          "/srv/git/p.git"
        ∈ (_run_git_push "bridge" envAllOK
            { projMain with repospanner_region := some "region1" }).1
      ∧ "v1.0" ∈ (pushInvocation "bridge" envAllOK
          { projMain with repospanner_region := some "region1" } "region1" "main"
          "/srv/git/p.git").command) :=
  ⟨rfl, rfl, by decide, rfl, by decide,
    claim_C5_push_one_invocation "bridge" envAllOK
      { projMain with repospanner_region := some "region1" } "region1" "main"
      "/srv/git/p.git" "v1.0" rfl rfl (by decide) rfl (by decide)⟩

/-- Claim C7: if the push step fails, `run_one_project` propagates the error
without ever reaching the reconfigure step, and the project's migration region
is left null — the temporary in-memory region assignment made for credential
lookup is reset in the `finally` of `run_git_push` on failure as well as on
success. -/
theorem claim_C7_push_failure_blocks_reconfigure (cfg : PipelineCfg) (env : GitEnv)
    (createOK : Bool) (p : Project) (fs : FS) (e : Err)
    (hc : (cfg.create && !createOK) = false)
    (hpush : (_run_git_push cfg.bridgeBinary env
        { p with repospanner_region := some cfg.region }).2 = some e) :
    (run_one_project cfg env createOK p fs).err = some e
    ∧ "reconfigure" ∉ (run_one_project cfg env createOK p fs).steps
    ∧ (run_one_project cfg env createOK p fs).proj.repospanner_region = none
    ∧ (run_git_push cfg.region cfg.bridgeBinary env p).1.repospanner_region = none := by
  have hout : run_one_project cfg env createOK p fs
      = { steps := if cfg.create then ["create"] else [],
          proj := { p with repospanner_region := none }, fs := fs, events := [],
          err := some e } := by
    simp [run_one_project, hc, run_git_push, hpush, project_set_region_twice]
  refine ⟨by rw [hout], ?_, by rw [hout], rfl⟩
  rw [hout]
  cases cfg.create <;> simp

/-- Witness for `claim_C7_push_failure_blocks_reconfigure`: push of the main
repository exits non-zero. -/
theorem claim_C7_push_failure_blocks_reconfigure_witness :
    (cfgReconfOnly.create && !true) = false
    ∧ (_run_git_push cfgReconfOnly.bridgeBinary { envAllOK with pushOK := fun _ => false }
        { projMain with repospanner_region := some cfgReconfOnly.region }).2
      = some (Err.transfer "main")
    ∧ ((run_one_project cfgReconfOnly { envAllOK with pushOK := fun _ => false } true
          projMain []).err = some (Err.transfer "main")
      ∧ "reconfigure" ∉ (run_one_project cfgReconfOnly
          { envAllOK with pushOK := fun _ => false } true projMain []).steps
      ∧ (run_one_project cfgReconfOnly { envAllOK with pushOK := fun _ => false } true
          projMain []).proj.repospanner_region = none
      ∧ (run_git_push cfgReconfOnly.region cfgReconfOnly.bridgeBinary
          { envAllOK with pushOK := fun _ => false } projMain).1.repospanner_region
        = none) :=
  ⟨rfl, rfl,
    claim_C7_push_failure_blocks_reconfigure cfgReconfOnly
      { envAllOK with pushOK := fun _ => false } true projMain [] (Err.transfer "main")
      rfl rfl⟩

/-- Claim C2 (counterexample): the claim says a failure raised by the prime
step is not fatal — the pipeline still reaches reconfigure and the migration
region is still set.  At this concrete input (prime and reconfigure enabled,
push succeeding, the fresh-mirror clone of the main repository failing) the
prime failure propagates: the completed steps are exactly `["push"]`, the
reconfigure step never runs, the region stays null, and `run_one_project`
re-raises the transfer error. -/
theorem claim_C2_counterexample :
    (run_one_project cfgPrimeReconf { envAllOK with cloneOK := fun _ => false } true
        projMain []).err = some (Err.transfer "main")
    ∧ (run_one_project cfgPrimeReconf { envAllOK with cloneOK := fun _ => false } true
        projMain []).steps = ["push"]
    ∧ (run_one_project cfgPrimeReconf { envAllOK with cloneOK := fun _ => false } true
        projMain []).proj.repospanner_region = none :=
  ⟨rfl, rfl, rfl⟩

/-- Claim C2 (amended): a failure raised by the prime step IS fatal to the
project's pipeline: `run_one_project` has no handler around `prime_cache`, so
the exception propagates, the reconfigure step never runs, and the project's
migration region remains null.  (Only in-place pull failures inside the prime
step are tolerated, because `runcmd` is called with `mayfail=True`; and prime
failures are reported by the same generic per-project handler as push
failures, not distinctly.) -/
theorem claim_C2_prime_failure_fatal (cfg : PipelineCfg) (env : GitEnv)
    (createOK : Bool) (p : Project) (fs : FS) (e : Err)
    (hc : (cfg.create && !createOK) = false)
    (hprime_on : cfg.prime = true)
    (hpush : (_run_git_push cfg.bridgeBinary env
        { p with repospanner_region := some cfg.region }).2 = none)
    (hprime : (prime_cache cfg.region cfg.pseudopath env
        { p with repospanner_region := none } fs).2.2 = some e) :
    (run_one_project cfg env createOK p fs).err = some e
    ∧ "reconfigure" ∉ (run_one_project cfg env createOK p fs).steps
    ∧ (run_one_project cfg env createOK p fs).proj.repospanner_region = none := by
  have hout : run_one_project cfg env createOK p fs
      = { steps := (if cfg.create then ["create"] else []) ++ ["push"],
          proj := { p with repospanner_region := none },
          fs := (prime_cache cfg.region cfg.pseudopath env
            { p with repospanner_region := none } fs).1,
          events := (prime_cache cfg.region cfg.pseudopath env
            { p with repospanner_region := none } fs).2.1.map REvent.cache,
          err := some e } := by
    simp [run_one_project, hc, run_git_push, hpush, hprime_on, project_set_region_twice,
      hprime]
  refine ⟨by rw [hout], ?_, by rw [hout]⟩
  rw [hout]
  cases cfg.create <;> simp

/-- Witness for `claim_C2_prime_failure_fatal`: prime and reconfigure enabled,
push succeeding, the fresh clone of the main mirror failing. -/
theorem claim_C2_prime_failure_fatal_witness :
    (cfgPrimeReconf.create && !true) = false
    ∧ cfgPrimeReconf.prime = true
    ∧ (_run_git_push cfgPrimeReconf.bridgeBinary
        { envAllOK with cloneOK := fun _ => false }
        { projMain with repospanner_region := some cfgPrimeReconf.region }).2 = none
    ∧ (prime_cache cfgPrimeReconf.region cfgPrimeReconf.pseudopath
        { envAllOK with cloneOK := fun _ => false }
        { projMain with repospanner_region := none } []).2.2
      = some (Err.transfer "main")
    ∧ ((run_one_project cfgPrimeReconf { envAllOK with cloneOK := fun _ => false } true
          projMain []).err = some (Err.transfer "main")
      ∧ "reconfigure" ∉ (run_one_project cfgPrimeReconf
          { envAllOK with cloneOK := fun _ => false } true projMain []).steps
      ∧ (run_one_project cfgPrimeReconf { envAllOK with cloneOK := fun _ => false } true
          projMain []).proj.repospanner_region = none) :=
  ⟨rfl, rfl, rfl, rfl,
    claim_C2_prime_failure_fatal cfgPrimeReconf { envAllOK with cloneOK := fun _ => false }
      true projMain [] (Err.transfer "main") rfl rfl rfl rfl⟩

theorem cachedirOf_inj (pseudopath : String) (p : Project) {rt rt' : String}
    (h : cachedirOf pseudopath rt p = cachedirOf pseudopath rt' p) : rt = rt' := by
  unfold cachedirOf at h
  have h2 := congrArg String.data h
  simp only [String.data_append, List.append_assoc] at h2
  have h3 := List.append_cancel_left h2
  have h4 := List.append_cancel_left h3
  exact String.ext (List.append_cancel_right h4)

theorem repospanner_repo_info_marked (p : Project) (region rt : String) :
    repospanner_repo_info ({ p with repospanner_region := some region }) rt
      = some (p.repo_info rt region) := rfl

theorem repospanner_clone_marked_ok (p : Project) (region rt target : String) (fs : FS) :
    repospanner_clone { p with repospanner_region := some region } rt true target true fs
      = ((target,
          { cloned_fresh := true,
            config := repospannerConfig (p.repo_info rt region).1
              (p.repo_info rt region).2 }) :: fs,
         [CEvent.cloneTo target], none) := rfl

theorem repospanner_clone_marked_fail (p : Project) (region rt target : String) (fs : FS) :
    repospanner_clone { p with repospanner_region := some region } rt true target false fs
      = (fs, [CEvent.cloneTo target], some (Err.transfer rt)) := rfl

theorem primeCacheLoop_all_cached (region pseudopath : String) (env : GitEnv)
    (p : Project) (l : List String) (fs : FS)
    (h : ∀ rt ∈ l, (p.repopath rt).isSome = true →
      (fsFind fs (cachedirOf pseudopath rt p)).isSome = true) :
    primeCacheLoop region pseudopath env p l fs
      = (fs, l.filterMap (fun rt =>
          if (p.repopath rt).isSome then
            some (CEvent.pull (cachedirOf pseudopath rt p)
              (env.pullOK (cachedirOf pseudopath rt p)))
          else none),
         none) := by
  induction l with
  | nil => rfl
  | cons rt rest ih =>
    have htail := ih (fun k hk => h k (List.mem_cons_of_mem rt hk))
    cases hrp : p.repopath rt with
    | none =>
      simp only [primeCacheLoop, hrp, htail, List.filterMap_cons]
      simp [hrp]
    | some cur =>
      have hc := h rt (List.mem_cons_self rt rest) (by rw [hrp]; rfl)
      obtain ⟨d, hd⟩ := Option.isSome_iff_exists.mp hc
      simp [primeCacheLoop, hrp, hd, runcmd, htail, List.filterMap_cons]

theorem primeCacheLoop_preserves (region pseudopath : String) (env : GitEnv)
    (p : Project) (l : List String) (fs : FS) (k : String) (d : RepoDir)
    (hk : fsFind fs k = some d) :
    fsFind (primeCacheLoop region pseudopath env p l fs).1 k = some d := by
  induction l generalizing fs with
  | nil => exact hk
  | cons rt rest ih =>
    cases hrp : p.repopath rt with
    | none =>
      simp only [primeCacheLoop, hrp]
      exact ih fs hk
    | some cur =>
      simp only [primeCacheLoop, hrp]
      cases hcd : fsFind fs (cachedirOf pseudopath rt p) with
      | some d0 => exact ih fs hk
      | none =>
        cases hok : env.cloneOK rt with
        | false =>
          simp only [repospanner_clone_marked_fail]
          exact hk
        | true =>
          simp only [repospanner_clone_marked_ok]
          have hne : (cachedirOf pseudopath rt p == k) = false :=
            beq_eq_false_iff_ne.mpr (fun hh => by
              rw [← hh, hcd] at hk; exact Option.noConfusion hk)
          exact ih _ (by simp [fsFind, hne]; exact hk)

theorem primeCacheLoop_fresh_clone (region pseudopath : String) (env : GitEnv)
    (p : Project) (rt : String) (l : List String) (fs : FS)
    (hmem : rt ∈ l)
    (hpres : (p.repopath rt).isSome = true)
    (hfresh : fsFind fs (cachedirOf pseudopath rt p) = none)
    (herr : (primeCacheLoop region pseudopath env p l fs).2.2 = none) :
    fsFind (primeCacheLoop region pseudopath env p l fs).1 (cachedirOf pseudopath rt p)
      = some { cloned_fresh := true,
               config := repospannerConfig (p.repo_info rt region).1
                 (p.repo_info rt region).2 } := by
  induction l generalizing fs with
  | nil => cases hmem
  | cons rt0 rest ih =>
    by_cases hrr : rt0 = rt
    · subst hrr
      obtain ⟨cur, hcur⟩ := Option.isSome_iff_exists.mp hpres
      simp only [primeCacheLoop, hcur, hfresh] at herr ⊢
      cases hok : env.cloneOK rt0 with
      | false =>
        rw [hok] at herr
        simp [repospanner_clone_marked_fail] at herr
      | true =>
        rw [hok] at herr
        simp only [repospanner_clone_marked_ok] at herr ⊢
        exact primeCacheLoop_preserves region pseudopath env p rest _
          (cachedirOf pseudopath rt0 p) _ (by simp [fsFind])
    · have hmem' : rt ∈ rest := by
        rcases List.mem_cons.mp hmem with h1 | h1
        · exact absurd h1.symm hrr
        · exact h1
      cases hrp0 : p.repopath rt0 with
      | none =>
        simp only [primeCacheLoop, hrp0] at herr ⊢
        exact ih fs hmem' hfresh herr
      | some cur0 =>
        simp only [primeCacheLoop, hrp0] at herr ⊢
        cases hcd0 : fsFind fs (cachedirOf pseudopath rt0 p) with
        | some d0 =>
          simp only [hcd0, runcmd] at herr ⊢
          exact ih fs hmem' hfresh herr
        | none =>
          simp only [hcd0] at herr
          cases hok : env.cloneOK rt0 with
          | false =>
            rw [hok] at herr
            simp [repospanner_clone_marked_fail] at herr
          | true =>
            rw [hok] at herr
            simp only [repospanner_clone_marked_ok] at herr ⊢
            have hne : (cachedirOf pseudopath rt0 p == cachedirOf pseudopath rt p) = false :=
              beq_eq_false_iff_ne.mpr
                (fun hh => hrr (cachedirOf_inj pseudopath p hh))
            exact ih _ hmem' (by simp [fsFind, hne]; exact hfresh) herr

/-- Claim C9: when the cache directory of every present repository kind
already exists, the prime step performs one in-place `git pull` per present
kind — and because `runcmd` is invoked with `mayfail=True`
(`subprocess.call`), a pull failure is swallowed: for every assignment `q` of
pull exit statuses the step raises nothing, leaves the filesystem unchanged,
and continues through all repository kinds. -/
theorem claim_C9_pull_failures_swallowed (region pseudopath : String) (env : GitEnv)
    (q : String → Bool) (p : Project) (fs : FS) (b : Bool)
    (h : ∀ rt ∈ REPOTYPES, (p.repopath rt).isSome = true →
      (fsFind fs (cachedirOf pseudopath rt p)).isSome = true) :
    runcmd b true = none
    ∧ prime_cache region pseudopath { env with pullOK := q } p fs
      = (fs, REPOTYPES.filterMap (fun rt =>
          if (p.repopath rt).isSome then
            some (CEvent.pull (cachedirOf pseudopath rt p)
              (q (cachedirOf pseudopath rt p)))
          else none),
         none) :=
  ⟨rfl, primeCacheLoop_all_cached region pseudopath { env with pullOK := q } p
    REPOTYPES fs h⟩

/-- Witness for `claim_C9_pull_failures_swallowed`: the main mirror exists in
the cache and its `git pull` exits non-zero, yet priming succeeds and the
cache state is untouched. -/
theorem claim_C9_pull_failures_swallowed_witness :
    (∀ rt ∈ REPOTYPES, (projMain.repopath rt).isSome = true →
      (fsFind [("/srv/cache/main/p.git", ({ cloned_fresh := false, config := [] } : RepoDir))]
        (cachedirOf "/srv/cache" rt projMain)).isSome = true)
    ∧ (runcmd false true = none
      ∧ prime_cache "region1" "/srv/cache" { envAllOK with pullOK := fun _ => false }
          projMain [("/srv/cache/main/p.git",
            ({ cloned_fresh := false, config := [] } : RepoDir))]
        = ([("/srv/cache/main/p.git", ({ cloned_fresh := false, config := [] } : RepoDir))],
           REPOTYPES.filterMap (fun rt =>
             if (projMain.repopath rt).isSome then
               some (CEvent.pull (cachedirOf "/srv/cache" rt projMain)
                 ((fun _ => false) (cachedirOf "/srv/cache" rt projMain)))
             else none),
           none)) :=
  ⟨by decide,
    claim_C9_pull_failures_swallowed "region1" "/srv/cache" envAllOK (fun _ => false)
      projMain [("/srv/cache/main/p.git", { cloned_fresh := false, config := [] })]
      false (by decide)⟩

/-- Claim C10: in a completed prime, every repository kind whose cache
directory did not pre-exist gets a fresh clone whose own repository
configuration carries the repoSpanner connection settings (URL, client
certificate, client key, CA certificate, enabled flag), while a kind whose
cache directory pre-existed is updated in place by `git pull`, which leaves
the stored mirror entry — in particular its configuration — unchanged. -/
theorem claim_C10_clone_config (region pseudopath : String) (env : GitEnv)
    (p : Project) (fs : FS) (rt rt' : String) (d : RepoDir)
    (hrt : rt ∈ REPOTYPES)
    (hpres : (p.repopath rt).isSome = true)
    (hfresh : fsFind fs (cachedirOf pseudopath rt p) = none)
    (hold : fsFind fs (cachedirOf pseudopath rt' p) = some d)
    (herr : (prime_cache region pseudopath env p fs).2.2 = none) :
    fsFind (prime_cache region pseudopath env p fs).1 (cachedirOf pseudopath rt p)
      = some { cloned_fresh := true,
               config := repospannerConfig (p.repo_info rt region).1
                 (p.repo_info rt region).2 }
    ∧ fsFind (prime_cache region pseudopath env p fs).1 (cachedirOf pseudopath rt' p)
      = some d :=
  ⟨primeCacheLoop_fresh_clone region pseudopath env p rt REPOTYPES fs hrt hpres hfresh herr,
   primeCacheLoop_preserves region pseudopath env p REPOTYPES fs
     (cachedirOf pseudopath rt' p) d hold⟩

/-- Witness for `claim_C10_clone_config`: a project whose main mirror is
freshly cloned (and gets the five `repospanner.*` config entries) while its
doc mirror pre-exists and keeps its entry verbatim. -/
theorem claim_C10_clone_config_witness :
    "main" ∈ REPOTYPES
    ∧ (projMainDoc.repopath "main").isSome = true
    ∧ fsFind [("/srv/cache/doc/q.git",
        ({ cloned_fresh := false, config := [("x", "y")] } : RepoDir))]
        (cachedirOf "/srv/cache" "main" projMainDoc) = none
    ∧ fsFind [("/srv/cache/doc/q.git",
        ({ cloned_fresh := false, config := [("x", "y")] } : RepoDir))]
        (cachedirOf "/srv/cache" "doc" projMainDoc)
      = some { cloned_fresh := false, config := [("x", "y")] }
    ∧ (prime_cache "region1" "/srv/cache" envAllOK projMainDoc
        [("/srv/cache/doc/q.git",
          ({ cloned_fresh := false, config := [("x", "y")] } : RepoDir))]).2.2 = none
    ∧ (fsFind (prime_cache "region1" "/srv/cache" envAllOK projMainDoc
          [("/srv/cache/doc/q.git",
            ({ cloned_fresh := false, config := [("x", "y")] } : RepoDir))]).1
          (cachedirOf "/srv/cache" "main" projMainDoc)
        = some { cloned_fresh := true,
                 config := repospannerConfig (projMainDoc.repo_info "main" "region1").1
                   (projMainDoc.repo_info "main" "region1").2 }
      ∧ fsFind (prime_cache "region1" "/srv/cache" envAllOK projMainDoc
          [("/srv/cache/doc/q.git",
            ({ cloned_fresh := false, config := [("x", "y")] } : RepoDir))]).1
          (cachedirOf "/srv/cache" "doc" projMainDoc)
        = some { cloned_fresh := false, config := [("x", "y")] }) :=
  ⟨by decide, rfl, rfl, rfl, rfl,
    claim_C10_clone_config "region1" "/srv/cache" envAllOK projMainDoc
      [("/srv/cache/doc/q.git", { cloned_fresh := false, config := [("x", "y")] })]
      "main" "doc" { cloned_fresh := false, config := [("x", "y")] }
      (by decide) rfl rfl rfl rfl⟩

theorem matchAndRunLoop_false (L : String → Bool) (pipe : Project → PipeResult)
    (l : List Project) :
    matchAndRunLoop false L pipe l
      = { invoked := (l.filter (fun p => reMatch L p.fullname)).map Project.fullname,
          events := (l.filter (fun p => reMatch L p.fullname)).flatMap
            (fun p => (pipe p).events ++ errTrail (pipe p).err p.fullname),
          aborted := false } := by
  induction l with
  | nil => rfl
  | cons p rest ih =>
    cases hm : reMatch L p.fullname with
    | false => simp [matchAndRunLoop, hm, ih, List.filter_cons]
    | true =>
      cases he : (pipe p).err with
      | none => simp [matchAndRunLoop, hm, he, ih, List.filter_cons, errTrail]
      | some e => simp [matchAndRunLoop, hm, he, ih, List.filter_cons, errTrail]

theorem matchAndRunLoop_invoked_subset (ff : Bool) (L : String → Bool)
    (pipe : Project → PipeResult) (l : List Project) :
    ∀ s ∈ (matchAndRunLoop ff L pipe l).invoked,
      s ∈ (l.filter (fun p => reMatch L p.fullname)).map Project.fullname := by
  induction l with
  | nil => intro s hs; cases hs
  | cons p rest ih =>
    intro s hs
    cases hm : reMatch L p.fullname with
    | false =>
      simp only [List.filter_cons, hm, Bool.false_eq_true, if_false]
      simp only [matchAndRunLoop, hm] at hs
      exact ih s hs
    | true =>
      simp only [List.filter_cons, hm, if_true]
      simp only [matchAndRunLoop, hm] at hs
      cases he : (pipe p).err with
      | none =>
        rw [he] at hs
        simp only [List.map_cons, List.mem_cons]
        rcases List.mem_cons.mp hs with h1 | h1
        · exact Or.inl h1
        · exact Or.inr (ih s h1)
      | some e =>
        rw [he] at hs
        cases ff with
        | true =>
          simp only [if_true] at hs
          simp only [List.map_cons, List.mem_cons]
          rcases List.mem_cons.mp hs with h1 | h1
          · exact Or.inl h1
          · cases h1
        | false =>
          simp only [Bool.false_eq_true, if_false] at hs
          simp only [List.map_cons, List.mem_cons]
          rcases List.mem_cons.mp hs with h1 | h1
          · exact Or.inl h1
          · exact Or.inr (ih s h1)

/-- Claim C6: the runner invokes the per-project pipeline exactly for the
projects returned by the null-region registry query whose fully-qualified
name matches the pattern anchored at the start (`re.match` semantics: some
prefix of the full name is in the pattern's language), in registry order;
non-matching and non-null-region projects are skipped with no side effect —
the run's event trace is exactly the concatenation of the invoked pipelines'
traces.  (For a failfast run the invocation list is still confined to these
eligible projects; early abortion on failure is claim C8's subject.) -/
theorem claim_C6_eligibility (L : String → Bool) (pipe : Project → PipeResult)
    (projects : List Project) (ff : Bool) :
    (match_and_run false L pipe projects).invoked
      = ((projects.filter (fun p => p.repospanner_region.isNone)).filter
          (fun p => reMatch L p.fullname)).map Project.fullname
    ∧ (match_and_run false L pipe projects).events
      = ((projects.filter (fun p => p.repospanner_region.isNone)).filter
          (fun p => reMatch L p.fullname)).flatMap
          (fun p => (pipe p).events ++ errTrail (pipe p).err p.fullname)
    ∧ ((match_and_run ff L pipe projects).invoked.all (fun s =>
        (((projects.filter (fun p => p.repospanner_region.isNone)).filter
          (fun p => reMatch L p.fullname)).map Project.fullname).contains s)) = true := by
  refine ⟨?_, ?_, ?_⟩
  · rw [match_and_run, matchAndRunLoop_false]
  · rw [match_and_run, matchAndRunLoop_false]
  · rw [List.all_eq_true]
    intro s hs
    rw [List.elem_iff]
    exact matchAndRunLoop_invoked_subset ff L pipe _ s hs

theorem matchAndRunLoop_true_stops (L : String → Bool) (pipe : Project → PipeResult)
    (pre : List Project) (b : Project) (post : List Project) (e : Err)
    (hmatch : ∀ p ∈ pre, reMatch L p.fullname = true)
    (hbm : reMatch L b.fullname = true)
    (hpre : ∀ p ∈ pre, (pipe p).err = none)
    (hb : (pipe b).err = some e) :
    matchAndRunLoop true L pipe (pre ++ b :: post)
      = { invoked := pre.map Project.fullname ++ [b.fullname],
          events := pre.flatMap (fun p => (pipe p).events) ++ (pipe b).events
            ++ [REvent.errorLogged b.fullname],
          aborted := true } := by
  induction pre with
  | nil => simp [matchAndRunLoop, hbm, hb]
  | cons p pre' ih =>
    have hm := hmatch p (List.mem_cons_self p pre')
    have he := hpre p (List.mem_cons_self p pre')
    have ih2 := ih (fun x hx => hmatch x (List.mem_cons_of_mem p hx))
      (fun x hx => hpre x (List.mem_cons_of_mem p hx))
    simp [matchAndRunLoop, hm, he, ih2, List.append_assoc]

/-- Claim C8: for every matched project whose pipeline raises, the runner
prints the full traceback; with failfast set, the run aborts immediately
through `SystemExit` — the failing project is the last one invoked and no
later project is processed — while without failfast the runner continues, and
every matched project is invoked. -/
theorem claim_C8_failfast (L : String → Bool) (pipe : Project → PipeResult)
    (pre post : List Project) (b : Project) (e : Err)
    (hall : ((pre ++ b :: post).all
        (fun p => p.repospanner_region.isNone && reMatch L p.fullname)) = true)
    (hpre : (pre.all (fun p => ((pipe p).err).isNone)) = true)
    (hb : (pipe b).err = some e) :
    (match_and_run true L pipe (pre ++ b :: post)).invoked
        = pre.map Project.fullname ++ [b.fullname]
    ∧ (match_and_run true L pipe (pre ++ b :: post)).aborted = true
    ∧ (match_and_run true L pipe (pre ++ b :: post)).events
        = pre.flatMap (fun p => (pipe p).events) ++ (pipe b).events
            ++ [REvent.errorLogged b.fullname]
    ∧ (match_and_run false L pipe (pre ++ b :: post)).invoked
        = (pre ++ b :: post).map Project.fullname
    ∧ (match_and_run false L pipe (pre ++ b :: post)).aborted = false := by
  have hall2 := List.all_eq_true.mp hall
  have hsplit : ∀ p ∈ pre ++ b :: post,
      p.repospanner_region.isNone = true ∧ reMatch L p.fullname = true := by
    intro p hp
    have h1 := hall2 p hp
    simpa [Bool.and_eq_true] using h1
  have hfilter1 : (pre ++ b :: post).filter (fun p => p.repospanner_region.isNone)
      = pre ++ b :: post :=
    List.filter_eq_self.mpr (fun p hp => (hsplit p hp).1)
  have hfilter2 : (pre ++ b :: post).filter (fun p => reMatch L p.fullname)
      = pre ++ b :: post :=
    List.filter_eq_self.mpr (fun p hp => (hsplit p hp).2)
  have hloop := matchAndRunLoop_true_stops L pipe pre b post e
    (fun p hp => (hsplit p (List.mem_append.mpr (Or.inl hp))).2)
    ((hsplit b (List.mem_append.mpr (Or.inr (List.mem_cons_self b post)))).2)
    (fun p hp => Option.isNone_iff_eq_none.mp ((List.all_eq_true.mp hpre) p hp))
    hb
  refine ⟨?_, ?_, ?_, ?_, ?_⟩
  · rw [match_and_run, hfilter1, hloop]
  · rw [match_and_run, hfilter1, hloop]
  · rw [match_and_run, hfilter1, hloop]
  · rw [match_and_run, hfilter1, matchAndRunLoop_false, hfilter2]
  · rw [match_and_run, hfilter1, matchAndRunLoop_false]

/-- Witness for `claim_C8_failfast`: three matching projects a, p, c where
p's push fails (its main repository's push subprocess exits non-zero, while a
and c own no repositories); with failfast c is never attempted and the run
aborts, while without failfast all three are invoked. -/
theorem claim_C8_failfast_witness :
    (([projA] ++ projMain :: [projC]).all
        (fun p => p.repospanner_region.isNone
          && reMatch (fun _ => true) p.fullname)) = true
    ∧ ([projA].all (fun p =>
        ((runOneAsPipeline cfgReconfOnly { envAllOK with pushOK := fun _ => false }
            true [] p).err).isNone)) = true
    ∧ (runOneAsPipeline cfgReconfOnly { envAllOK with pushOK := fun _ => false }
        true [] projMain).err = some (Err.transfer "main")
    ∧ ((match_and_run true (fun _ => true)
          (runOneAsPipeline cfgReconfOnly { envAllOK with pushOK := fun _ => false }
            true []) ([projA] ++ projMain :: [projC])).invoked
        = [projA].map Project.fullname ++ [projMain.fullname]
      ∧ (match_and_run true (fun _ => true)
          (runOneAsPipeline cfgReconfOnly { envAllOK with pushOK := fun _ => false }
            true []) ([projA] ++ projMain :: [projC])).aborted = true
      ∧ (match_and_run true (fun _ => true)
          (runOneAsPipeline cfgReconfOnly { envAllOK with pushOK := fun _ => false }
            true []) ([projA] ++ projMain :: [projC])).events
        = [projA].flatMap (fun p =>
            (runOneAsPipeline cfgReconfOnly { envAllOK with pushOK := fun _ => false }
              true [] p).events)
          ++ (runOneAsPipeline cfgReconfOnly { envAllOK with pushOK := fun _ => false }
              true [] projMain).events
          ++ [REvent.errorLogged projMain.fullname]
      ∧ (match_and_run false (fun _ => true)
          (runOneAsPipeline cfgReconfOnly { envAllOK with pushOK := fun _ => false }
            true []) ([projA] ++ projMain :: [projC])).invoked
        = ([projA] ++ projMain :: [projC]).map Project.fullname
      ∧ (match_and_run false (fun _ => true)
          (runOneAsPipeline cfgReconfOnly { envAllOK with pushOK := fun _ => false }
            true []) ([projA] ++ projMain :: [projC])).aborted = false) :=
  ⟨by decide, by decide, rfl,
    claim_C8_failfast (fun _ => true)
      (runOneAsPipeline cfgReconfOnly { envAllOK with pushOK := fun _ => false } true [])
      [projA] [projC] projMain (Err.transfer "main")
      (by decide) (by decide) rfl⟩

theorem count_flatMap_events (c : REvent) (f : Project → List REvent) (l : List Project) :
    (l.flatMap f).count c = (l.map (fun p => (f p).count c)).sum := by
  induction l with
  | nil => rfl
  | cons p rest ih => simp [List.flatMap_cons, List.count_append, ih]

theorem count_commit_errTrail (e : Option Err) (fn : String) :
    (errTrail e fn).count (REvent.session SEvent.commit) = 0 := by
  cases e with
  | none => rfl
  | some _ => exact List.count_eq_zero.mpr (by simp [errTrail])

theorem count_commit_cache (l : List CEvent) :
    (l.map REvent.cache).count (REvent.session SEvent.commit) = 0 :=
  List.count_eq_zero.mpr (by simp)

theorem finishReconfigure_commit_count (cfg : PipelineCfg) (p : Project) (fs : FS)
    (tr : List String) (evs : List REvent)
    (h : evs.count (REvent.session SEvent.commit) = 0) :
    (finishReconfigure cfg p fs tr evs).events.count (REvent.session SEvent.commit)
      = (if cfg.reconfigure then 1 else 0) := by
  cases hrc : cfg.reconfigure with
  | false => simp [finishReconfigure, hrc, h]
  | true =>
    simp [finishReconfigure, hrc, reconfigure, List.count_append, h, List.count_cons]

theorem run_one_project_commit_count (cfg : PipelineCfg) (env : GitEnv)
    (createOK : Bool) (q : Project) (fs : FS)
    (h : (run_one_project cfg env createOK q fs).err = none) :
    (run_one_project cfg env createOK q fs).events.count (REvent.session SEvent.commit)
      = (if cfg.reconfigure then 1 else 0) := by
  cases hcc : (cfg.create && !createOK) with
  | true => simp [run_one_project, hcc] at h
  | false =>
    simp only [run_one_project, hcc, Bool.false_eq_true, if_false] at h ⊢
    cases hpp : (run_git_push cfg.region cfg.bridgeBinary env q).2.2 with
    | some e =>
      rw [hpp] at h
      simp at h
    | none =>
      cases hpr : cfg.prime with
      | false => exact finishReconfigure_commit_count cfg _ fs _ [] rfl
      | true =>
        cases hpe : (prime_cache cfg.region cfg.pseudopath env
            (run_git_push cfg.region cfg.bridgeBinary env q).1 fs).2.2 with
        | some e =>
          rw [hpp] at h
          simp [hpr, hpe] at h
        | none =>
          exact finishReconfigure_commit_count cfg _ _ _ _ (count_commit_cache _)

/-- Claim C1 (counterexample): the claim says reconfigure only stages the
change without committing, and that the registry commit happens exactly once
per run, after the loop over all matched projects.  In this concrete run over
two matched projects with reconfigure enabled, `reconfigure` itself commits
for each project: the event trace interleaves a commit directly after each
project's session-add — the first commit lands before the second project is
even invoked — and the run contains two commits, not one. -/
theorem claim_C1_counterexample :
    (match_and_run false (fun _ => true)
        (runOneAsPipeline cfgReconfOnly envAllOK true []) [projA, projB]).events
      = [REvent.session (SEvent.add "a"), REvent.session SEvent.commit,
         REvent.session (SEvent.add "b"), REvent.session SEvent.commit]
    ∧ (match_and_run false (fun _ => true)
        (runOneAsPipeline cfgReconfOnly envAllOK true []) [projA, projB]).events.count
        (REvent.session SEvent.commit) = 2 :=
  ⟨rfl, rfl⟩

/-- Claim C1 (amended): `reconfigure` sets the project's migration-region
field, stages the project in the session, and commits the session itself,
immediately — one commit per reconfigured project.  `match_and_run` performs
no commit of its own: the commits in a run's event trace are exactly the
commits emitted by the invoked per-project pipelines (one per successful
pipeline with reconfigure enabled, zero otherwise), so each project's
migration region becomes durable as soon as its own reconfigure step
completes, not in a final batch. -/
theorem claim_C1_reconfigure_commits_per_project (region : String) (p : Project)
    (L : String → Bool) (pipe : Project → PipeResult) (projects : List Project)
    (cfg : PipelineCfg) (env : GitEnv) (createOK : Bool) (q : Project) (fs : FS)
    (hq : (run_one_project cfg env createOK q fs).err = none) :
    (reconfigure region p).2 = [SEvent.add p.name, SEvent.commit]
    ∧ (reconfigure region p).1.repospanner_region = some region
    ∧ (match_and_run false L pipe projects).events.count (REvent.session SEvent.commit)
      = (((projects.filter (fun x => x.repospanner_region.isNone)).filter
            (fun x => reMatch L x.fullname)).map
          (fun x => (pipe x).events.count (REvent.session SEvent.commit))).sum
    ∧ (run_one_project cfg env createOK q fs).events.count (REvent.session SEvent.commit)
      = (if cfg.reconfigure then 1 else 0) := by
  refine ⟨rfl, rfl, ?_, run_one_project_commit_count cfg env createOK q fs hq⟩
  rw [match_and_run, matchAndRunLoop_false]
  rw [count_flatMap_events]
  have hfun : (fun x : Project =>
        ((pipe x).events ++ errTrail (pipe x).err x.fullname).count
          (REvent.session SEvent.commit))
      = (fun x : Project => (pipe x).events.count (REvent.session SEvent.commit)) :=
    funext (fun x => by
      rw [List.count_append, count_commit_errTrail, Nat.add_zero])
  rw [hfun]

/-- Witness for `claim_C1_reconfigure_commits_per_project`: a successful
reconfigure-only pipeline run over two projects. -/
theorem claim_C1_reconfigure_commits_per_project_witness :
    (run_one_project cfgReconfOnly envAllOK true projA []).err = none
    ∧ ((reconfigure "region1" projA).2 = [SEvent.add projA.name, SEvent.commit]
      ∧ (reconfigure "region1" projA).1.repospanner_region = some "region1"
      ∧ (match_and_run false (fun _ => true)
          (runOneAsPipeline cfgReconfOnly envAllOK true []) [projA, projB]).events.count
          (REvent.session SEvent.commit)
        = ((([projA, projB].filter (fun x => x.repospanner_region.isNone)).filter
              (fun x => reMatch (fun _ => true) x.fullname)).map
            (fun x => ((runOneAsPipeline cfgReconfOnly envAllOK true [] x).events.count
              (REvent.session SEvent.commit)))).sum
      ∧ (run_one_project cfgReconfOnly envAllOK true projA []).events.count
          (REvent.session SEvent.commit)
        = (if cfgReconfOnly.reconfigure then 1 else 0)) :=
  ⟨rfl,
    claim_C1_reconfigure_commits_per_project "region1" projA (fun _ => true)
      (runOneAsPipeline cfgReconfOnly envAllOK true []) [projA, projB]
      cfgReconfOnly envAllOK true projA [] rfl⟩

end Migrate

end Massmigrate
